import Mathlib

/-!
Verification development for the MeetingMaster transcript pipeline.

The definitions below are a shallow embedding of the transcript-processing
code of the repository:

* `server/lib/transcript-handler.ts` — transcript upload handling
  (`saveTranscriptToDatabase`): CSV normalization, automatic analysis,
  decision derivation and action-item derivation;
* `server/lib/openai.ts` — the summarization client (`analyzeTranscript`,
  `createPlaceholderSummary`);
* the HTTP routes (`registerRoutes`) and the storage layer
  (`DatabaseStorage`) for summary creation/update.

JavaScript strings are modelled as `String`, JavaScript `null`/`undefined`
optionality as `Option`, and JavaScript truthiness of strings as the test
against `""`.  A thrown `TypeError` in the derivation loop is modelled with
`Except`.  Wall-clock values (`new Date()...`) are threaded through a
`Clock` record of opaque labels so that every function stays pure.
-/

namespace MeetingMaster

/-- Whether `p` is an initial segment of `cs`. -/
def startsWithL : List Char → List Char → Bool
  | [], _ => true
  | _ :: _, [] => false
  | p :: ps, c :: cs => p == c && startsWithL ps cs

/-- Whether `pat` occurs as a contiguous segment of `cs`. -/
def hasSubL (cs pat : List Char) : Bool :=
  match cs with
  | [] => startsWithL pat []
  | _ :: rest => startsWithL pat cs || hasSubL rest pat

/-- JavaScript `s.includes(pat)`: substring containment test. -/
def jsIncludes (s pat : String) : Bool :=
  hasSubL s.data pat.data

/-- Split a character list at every occurrence of a separator character. -/
def splitOnCharAux (sep : Char) : List Char → List Char → List (List Char)
  | [], acc => [acc.reverse]
  | c :: rest, acc =>
      if c == sep then acc.reverse :: splitOnCharAux sep rest []
      else splitOnCharAux sep rest (c :: acc)

/-- JavaScript `s.split(sep)` for a one-character separator. -/
def jsSplitChar (s : String) (sep : Char) : List String :=
  (splitOnCharAux sep s.data []).map (fun cs => String.mk cs)

/-- JavaScript `s.trim()`: strip leading and trailing whitespace. -/
def jsTrim (s : String) : String :=
  String.mk
    (((s.data.dropWhile Char.isWhitespace).reverse.dropWhile
      Char.isWhitespace).reverse)

/-- JavaScript `s.toLowerCase()` (ASCII case mapping). -/
def jsToLower (s : String) : String :=
  String.mk (s.data.map Char.toLower)

/-- JavaScript `s.toUpperCase()` (ASCII case mapping). -/
def jsToUpper (s : String) : String :=
  String.mk (s.data.map Char.toUpper)

/-- Remove every double-quote character; models the replace of every
double quote by the empty string. -/
def stripQuotes (s : String) : String :=
  String.mk (s.data.filter (fun c => c ≠ '"'))

/-- Number of double-quote characters in a character list. -/
def quoteCount (cs : List Char) : Nat :=
  cs.countP (fun c => c == '"')

/-- Split a character list at every comma that is followed by an even number
of double quotes, i.e. at every comma that is not inside a quoted field.
This models the JavaScript split
`line.split(/,(?=(?:(?:[^"]*"){2})*[^"]*$)/)`: the lookahead accepts a comma
exactly when the remainder of the line contains an even number of `"`. -/
def csvSplitAux : List Char → List Char → List (List Char)
  | [], acc => [acc.reverse]
  | c :: rest, acc =>
    if c = ',' ∧ quoteCount rest % 2 = 0 then
      acc.reverse :: csvSplitAux rest []
    else
      csvSplitAux rest (c :: acc)

/-- Quote-aware comma split of a line (see `csvSplitAux`). -/
def csvSplit (s : String) : List String :=
  (csvSplitAux s.data []).map (fun cs => String.mk cs)

/-- Models `parts[0].replace(..).trim()` — the timestamp column. -/
def rowTimestamp (parts : List String) : String :=
  jsTrim (stripQuotes (parts.headD ""))

/-- Models `parts[1].replace(..).trim()` — the speaker column. -/
def rowSpeaker (parts : List String) : String :=
  jsTrim (stripQuotes (parts.getD 1 ""))

/-- Models `parts.slice(2).join(",").replace(..).trim()` — the text column,
with any commas that survived the quote-aware split rejoined. -/
def rowText (parts : List String) : String :=
  jsTrim (stripQuotes (String.intercalate "," (parts.drop 2)))

/-- The canonical output line `[timestamp] speaker: text\n` built by
`formattedText += \x7b...\x7d` for a row with at least three fields. -/
def canonicalLine (parts : List String) : String :=
  "[" ++ rowTimestamp parts ++ "] " ++ rowSpeaker parts ++ ": " ++
    rowText parts ++ "\n"

/-- Models `participants.add(speaker)` guarded by
`if (speaker && speaker !== "undefined")`; the JavaScript `Set` keeps
insertion order and ignores re-insertions. -/
def addParticipant (ps : List String) (s : String) : List String :=
  if s ≠ "" ∧ s ≠ "undefined" ∧ s ∉ ps then ps ++ [s] else ps

/-- One iteration of the CSV loop of the new-meeting upload path
(`saveTranscriptToDatabase`, no target meeting): accumulate the formatted
text and the participant set. -/
def csvStep (acc : String × List String) (rawLine : String) :
    String × List String :=
  let line := jsTrim rawLine
  if line = "" then acc
  else
    let parts := csvSplit line
    if 3 ≤ parts.length then
      (acc.1 ++ canonicalLine parts, addParticipant acc.2 (rowSpeaker parts))
    else
      (acc.1 ++ line ++ "\n", acc.2)

/-- Header-skip offset: `lines[0].includes("timestamp") ||
lines[0].includes("speaker") ? 1 : 0`. -/
def csvHeaderSkip (lines : List String) : Nat :=
  if jsIncludes (lines.headD "") "timestamp" ∨
      jsIncludes (lines.headD "") "speaker" then 1 else 0

/-- The body lines of a CSV input: `rawContent.split(newline)` minus the
skipped header. -/
def csvBody (raw : String) : List String :=
  (jsSplitChar raw '\n').drop (csvHeaderSkip (jsSplitChar raw '\n'))

/-- CSV normalization of the new-meeting upload path: formatted transcript
text together with the extracted participant list. -/
def normalizeCsv (raw : String) : String × List String :=
  (csvBody raw).foldl csvStep ("", [])

/-- One iteration of the CSV loop of the existing-meeting upload path; this
loop is the same as `csvStep` except that it accumulates no participants. -/
def csvStepText (acc : String) (rawLine : String) : String :=
  let line := jsTrim rawLine
  if line = "" then acc
  else
    let parts := csvSplit line
    if 3 ≤ parts.length then acc ++ canonicalLine parts
    else acc ++ line ++ "\n"

/-- CSV formatting of the existing-meeting upload path (text only). -/
def csvTextOf (raw : String) : String :=
  (csvBody raw).foldl csvStepText ""

/-! ## The summary data model (`SummaryData` of `server/lib/openai.ts`) -/

/-- An attendee descriptor of the summary record. -/
structure Attendee where
  name : String
  role : String
  contributions : String
  responsibleFor : List String
deriving Repr, DecidableEq

/-- An explicit decision entry attached to a discussion point. -/
structure DecisionEntry where
  decision : String
  owner : String
deriving Repr, DecidableEq

/-- An insight of a discussion point.  The code handles both bare strings
and speaker-attributed objects (duck-typed at runtime); an object carries
optional `insight` and `text` fields and an optional `speaker` field. -/
inductive InsightVal where
  | str (s : String)
  | obj (insightField : Option String) (textField : Option String)
      (speaker : Option String)
deriving Repr, DecidableEq

/-- A discussion point of the summary record. -/
structure Point where
  topic : String
  summary : String
  contributors : Option (List String)
  insights : List InsightVal
  questions : List String
  decisions : Option (List DecisionEntry)
deriving Repr, DecidableEq

/-- A task assignment of the follow-up structure. -/
structure TaskAssignment where
  task : String
  assignee : String
deriving Repr, DecidableEq

/-- The follow-up requirements structure. -/
structure FollowUp where
  nextMeeting : Option String
  deferredTopics : Option (List String)
  resources : Option (List String)
  taskAssignments : Option (List TaskAssignment)
deriving Repr, DecidableEq

/-- The sentiment-analysis structure. -/
structure Sentiment where
  tone : String
  engagement : String
  concerns : Option String
deriving Repr, DecidableEq

/-- A transcript highlight. -/
structure Highlight where
  quote : String
  speaker : String
  timestamp : String
  significance : Option String
deriving Repr, DecidableEq

/-- The full summary record returned by the summarization client. -/
structure SummaryData where
  executiveSummary : String
  attendees : Option (List Attendee)
  keyDiscussionPoints : List Point
  followUpRequirements : FollowUp
  sentimentAnalysis : Sentiment
  transcriptHighlights : List Highlight
  decisionMakers : Option String
deriving Repr, DecidableEq

/-! ## Summarization client (`analyzeTranscript`, `createPlaceholderSummary`) -/

/-- Models `createPlaceholderSummary(message)`, transcribed field by field from
`server/lib/openai.ts`. -/
def createPlaceholderSummary (message : String) : SummaryData where
  executiveSummary :=
    "Failed to generate summary. Please provide an OpenAI API key to enable this feature."
  attendees := some [⟨"System", "Notification",
    "None - OpenAI integration required", ["Providing API key"]⟩]
  keyDiscussionPoints := [{
    topic := "OpenAI Integration Required"
    summary := "The AI-powered analysis features require a valid OpenAI API key."
    contributors := some ["System"]
    insights := [.str message]
    questions := ["Do you have an OpenAI API key to provide?"]
    decisions := some [⟨"Configure OpenAI API key to enable AI features",
      "Administrator"⟩] }]
  followUpRequirements := {
    nextMeeting := some "Not available"
    deferredTopics := some ["AI-powered analysis"]
    resources := some ["OpenAI API key"]
    taskAssignments := some [⟨"Add OpenAI API key to environment variables",
      "Administrator"⟩] }
  sentimentAnalysis := ⟨"Not available", "Not available", none⟩
  transcriptHighlights := []
  decisionMakers := some "Not available without AI analysis"

/-- Models `analyzeTranscript`: when no `OPENAI_API_KEY` is configured the client
returns the placeholder with a configuration message; otherwise the remote
call runs, and every failure of it — client not initialized, thrown network
error, missing content, unparseable JSON — ends in the `catch` that returns
the placeholder with an error message.  `remote` is `some d` when the call
succeeds and parses into shape `d`, `none` on any of those failures. -/
def analyzeTranscriptModel (hasKey : Bool) (remote : Option SummaryData) :
    SummaryData :=
  if !hasKey then
    createPlaceholderSummary
      "OpenAI API key is not configured. Please set OPENAI_API_KEY environment variable."
  else
    match remote with
    | some d => d
    | none =>
        createPlaceholderSummary
          "Error processing transcript. Please check your API key or try again later."

/-! ## Entity derivation (`saveTranscriptToDatabase`, lines 171-298) -/

/-- Wall-clock values used by one derivation pass, kept opaque:
`timeLabel` is `new Date().toLocaleTimeString()`, `dateLabel` is
`new Date().toLocaleDateString()`, `nowMs` is `Date.now()` and
`isoDateOnly d` is the date-only part of the ISO rendering of `d`. -/
structure Clock where
  nowMs : Nat
  timeLabel : String
  dateLabel : String
  isoDateOnly : Nat → String

/-- A decision draft as passed to `storage.createDecision` (without the
meeting id, which is the id of the meeting under analysis). -/
structure DecisionDraft where
  description : String
  owner : String
  timestamp : String
  context : String
deriving Repr, DecidableEq

/-- An action-item draft as passed to `storage.createActionItem`. -/
structure ActionItemDraft where
  task : String
  assignee : String
  deadline : String
  status : String
  priority : String
  notes : String
deriving Repr, DecidableEq

/-- Text extraction from an insight: the string itself for a bare string,
otherwise the first non-empty one of the `insight` and `text` fields with
the empty string as final fallback. -/
def insightTextOf : InsightVal → String
  | .str s => s
  | .obj iF tF _ =>
      let a := iF.getD ""
      if a ≠ "" then a
      else
        let b := tF.getD ""
        if b ≠ "" then b else ""

/-- Speaker extraction from an insight: `null` for a bare string,
otherwise the `speaker` field when truthy. -/
def speakerNameOf : InsightVal → Option String
  | .str _ => none
  | .obj _ _ sp =>
      match sp with
      | some s => if s = "" then none else some s
      | none => none

/-- The seven-keyword decision classifier applied to the lowercased
insight text. -/
def isDecisionBearing (text : String) : Bool :=
  jsIncludes (jsToLower text) "decide" || jsIncludes (jsToLower text) "agreed" ||
  jsIncludes (jsToLower text) "conclusion" || jsIncludes (jsToLower text) "passed" ||
  jsIncludes (jsToLower text) "requested" || jsIncludes (jsToLower text) "ownership" ||
  jsIncludes (jsToLower text) "priority"

/-- Models `speakerName.split(..).map(part => part[0]).join(..)
.toUpperCase()` — the uppercased initials; `join` renders the `undefined`
first character of an empty token as the empty string. -/
def initialsOf (name : String) : String :=
  jsToUpper (String.join ((jsSplitChar name ' ').map (fun part => part.take 1)))

/-- Models the regex match of a leading name before the
first colon, that is
first colon, provided at least one non-colon character precedes it. -/
def leadingNameOf (s : String) : Option String :=
  match jsSplitChar s ':' with
  | first :: _ :: _ => if first = "" then none else some first
  | _ => none

/-- Process one insight of the fallback loop.  Returns `.ok none` when the
insight is skipped (empty text or no keyword), `.ok (some draft)` when a
decision draft is created, and `.error ()` when the code throws: for a
speaker-attributed object insight that passes the keyword test, the code
calls `insight.match(...)` on the raw object, which raises
`TypeError: insight.match is not a function` (the preceding initials
computation on the speaker name has no observable effect). -/
def deriveFromInsight (participants : List String)
    (topic timeLabel : String) (ins : InsightVal) :
    Except Unit (Option DecisionDraft) :=
  let text := insightTextOf ins
  if text = "" then .ok none
  else if isDecisionBearing text then
    match ins with
    | .obj _ _ _ => .error ()
    | .str s =>
        let owner :=
          match leadingNameOf s with
          | some nm => jsTrim nm
          | none =>
              match participants.find? (fun p => jsIncludes s p) with
              | some p => p
              | none => "Team"
        .ok (some ⟨s, owner, timeLabel, topic⟩)
  else .ok none

/-- The inner `for (const insight of point.insights)` loop.  The second
component records whether the loop aborted with a thrown `TypeError`; the
first component collects the drafts created before the abort. -/
def deriveInsightList (participants : List String)
    (topic timeLabel : String) : List InsightVal → List DecisionDraft × Bool
  | [] => ([], false)
  | i :: rest =>
      match deriveFromInsight participants topic timeLabel i with
      | .error _ => ([], true)
      | .ok none => deriveInsightList participants topic timeLabel rest
      | .ok (some d) =>
          let r := deriveInsightList participants topic timeLabel rest
          (d :: r.1, r.2)

/-- Decision derivation for one discussion point: structured `decisions`
first, insight scanning only as the fallback. -/
def derivePoint (participants : List String) (timeLabel : String)
    (p : Point) : List DecisionDraft × Bool :=
  let viaInsights :=
    if 0 < p.insights.length then
      deriveInsightList participants p.topic timeLabel p.insights
    else ([], false)
  match p.decisions with
  | some ds =>
      if 0 < ds.length then
        (ds.map (fun d => ⟨d.decision, d.owner, timeLabel, p.topic⟩), false)
      else viaInsights
  | none => viaInsights

/-- The outer `for (const point of summaryData.keyDiscussionPoints)` loop;
a thrown `TypeError` aborts the remaining points. -/
def deriveDecisions (participants : List String) (timeLabel : String) :
    List Point → List DecisionDraft × Bool
  | [] => ([], false)
  | p :: rest =>
      let r := derivePoint participants timeLabel p
      if r.2 then (r.1, true)
      else
        let r2 := deriveDecisions participants timeLabel rest
        (r.1 ++ r2.1, r2.2)

/-- Assignee resolution of the resource fallback branch: a mutable
`assignee` variable initialized to the label Unassigned, overwritten by the first
attendee responsible for resources, else by the first attendee, else by the
first meeting participant. -/
def resourceAssignee (s : SummaryData) (participants : List String) :
    String :=
  match s.attendees with
  | some atts =>
      if 0 < atts.length then
        let found :=
          match atts.find? (fun a => a.responsibleFor.any (fun r =>
              jsIncludes (jsToLower r) "resource" || jsIncludes (jsToLower r) "shar" ||
              jsIncludes (jsToLower r) "document")) with
          | some a => a.name
          | none => "Unassigned"
        if found = "Unassigned" ∧ 0 < atts.length then
          (atts.headD ⟨"", "", "", []⟩).name
        else found
      else
        match participants with
        | p :: _ => p
        | [] => "Unassigned"
  | none =>
      match participants with
      | p :: _ => p
      | [] => "Unassigned"

/-- The deadline string `new Date(Date.now() + 7*24*60*60*1000)
.toISOString().split(..)[0]` — one week from now, date-only. -/
def weekDeadline (c : Clock) : String :=
  c.isoDateOnly (c.nowMs + 7 * 24 * 60 * 60 * 1000)

/-- Action-item derivation: one item per task assignment when the
`taskAssignments` list is non-empty, otherwise the resource fallback (the
resource branch runs whenever `resources` is present, even when empty). -/
def deriveActionItems (c : Clock) (s : SummaryData)
    (participants : List String) : List ActionItemDraft :=
  let viaResources : List ActionItemDraft :=
    match s.followUpRequirements.resources with
    | some rs => rs.map (fun r =>
        ⟨"Share resource: " ++ r, resourceAssignee s participants,
          weekDeadline c, "Pending", "Medium",
          "Auto-generated from meeting analysis"⟩)
    | none => []
  match s.followUpRequirements.taskAssignments with
  | some ts =>
      if 0 < ts.length then
        ts.map (fun t =>
          ⟨t.task, t.assignee, weekDeadline c, "Pending", "Medium",
            "Auto-generated from meeting analysis"⟩)
      else viaResources
  | none => viaResources

/-- The entity outputs of one analysis pass.  When decision derivation
throws, the exception propagates to the surrounding `catch` and action-item
derivation never runs. -/
structure PassOutput where
  decisions : List DecisionDraft
  actionItems : List ActionItemDraft
  crashed : Bool
deriving Repr, DecidableEq

/-- One full derivation pass over a persisted summary record. -/
def derivePass (c : Clock) (participants : List String) (s : SummaryData) :
    PassOutput :=
  let dres := deriveDecisions participants c.timeLabel s.keyDiscussionPoints
  if dres.2 then ⟨dres.1, [], true⟩
  else ⟨dres.1, deriveActionItems c s participants, false⟩

/-! ## Meetings, partial updates, and the upload entry point -/

/-- A meeting row (`meetings` table of `shared/schema.ts`). -/
structure Meeting where
  id : Nat
  title : String
  date : String
  startTime : String
  endTime : String
  duration : String
  participants : List String
  location : String
  createdBy : Nat
  teamId : Option Nat
  isPublic : Bool
  transcriptUrl : Option String
  transcriptText : Option String
deriving Repr, DecidableEq

/-- A `Partial<InsertMeeting>` as accepted by
`DatabaseStorage.updateMeeting`: every insertable column is optional, and
the `.set` call of drizzle leaves the columns whose field is absent unchanged. -/
structure MeetingPatch where
  title : Option String := none
  date : Option String := none
  startTime : Option String := none
  endTime : Option String := none
  duration : Option String := none
  participants : Option (List String) := none
  location : Option String := none
  createdBy : Option Nat := none
  teamId : Option Nat := none
  isPublic : Option Bool := none
  transcriptUrl : Option String := none
  transcriptText : Option String := none

/-- Models `DatabaseStorage.updateMeeting(id, meetingData)` applied to a found
row: `.set(meetingData)` overwrites exactly the present fields. -/
def applyPatch (m : Meeting) (p : MeetingPatch) : Meeting where
  id := m.id
  title := p.title.getD m.title
  date := p.date.getD m.date
  startTime := p.startTime.getD m.startTime
  endTime := p.endTime.getD m.endTime
  duration := p.duration.getD m.duration
  participants := p.participants.getD m.participants
  location := p.location.getD m.location
  createdBy := p.createdBy.getD m.createdBy
  teamId := p.teamId.orElse (fun _ => m.teamId)
  isPublic := p.isPublic.getD m.isPublic
  transcriptUrl := p.transcriptUrl.orElse (fun _ => m.transcriptUrl)
  transcriptText := p.transcriptText.orElse (fun _ => m.transcriptText)

/-- An uploaded transcript file as seen by `saveTranscriptToDatabase`:
`origExt` is `path.extname(file.originalname).toLowerCase()`, `pathStr` is
the multer disk path, and `content` is the result of
`fs.readFileSync(file.path, "utf8")` — `none` models a read error. -/
structure UploadFile where
  origName : String
  origExt : String
  mimetype : String
  pathStr : String
  content : Option String
deriving Repr, DecidableEq

/-- The file-reading guard: the mimetype is text/plain or one of the three
CSV/Excel mimetypes, or the lowercased file extension is .csv. -/
def readCondition (f : UploadFile) : Bool :=
  f.mimetype == "text/plain" || f.mimetype == "text/csv" ||
  f.mimetype == "application/csv" ||
  f.mimetype == "application/vnd.ms-excel" || f.origExt == ".csv"

/-- The CSV-format test: the extension is .csv or the mimetype contains
"csv" or "excel". -/
def csvFormatCond (f : UploadFile) : Bool :=
  f.origExt == ".csv" || jsIncludes f.mimetype "csv" ||
  jsIncludes f.mimetype "excel"

/-- The `transcriptText` local variable of the existing-meeting path:
`null` unless the read guard holds and the file reads successfully, the
CSV-formatted text for CSV files, the raw content otherwise. -/
def computeTranscriptText (f : UploadFile) : Option String :=
  if readCondition f then
    match f.content with
    | some raw => some (if csvFormatCond f then csvTextOf raw else raw)
    | none => none
  else none

/-- The update object `\x7b transcriptUrl: file.path,
transcriptText: transcriptText || undefined \x7d` of the existing-meeting
path: an empty or null text is omitted from the update. -/
def existingUploadPatch (f : UploadFile) : MeetingPatch where
  transcriptUrl := some f.pathStr
  transcriptText :=
    match computeTranscriptText f with
    | some t => if t = "" then none else some t
    | none => none

/-- The meeting row after a transcript upload targeted at an existing
meeting. -/
def existingUploadUpdate (m : Meeting) (f : UploadFile) : Meeting :=
  applyPatch m (existingUploadPatch f)

/-- The observable outcome of one `saveTranscriptToDatabase` call:
whether `analyzeTranscript` was invoked in this pass, the transcript text
written by this upload (`none` when the field was not written), whether a
new meeting was created, and the success flag of the returned result. -/
structure SaveOutcome where
  invoked : Bool
  storedText : Option String
  createdMeeting : Bool
  success : Bool
deriving Repr, DecidableEq

/-- JavaScript truthiness of the nullable `transcriptText` variable. -/
def truthyText : Option String → Bool
  | some s => s != ""
  | none => false

/-- Control flow of `saveTranscriptToDatabase`: the existing-meeting path
reads and stores the text and analyzes when a key is configured and the
text is truthy; the new-meeting path creates a meeting and analyzes only in
its CSV branch — the plain-text branch returns without analysis, and an
unreadable or unsupported file yields a failure result. -/
def savePass (hasKey : Bool) (f : UploadFile) (target : Option Meeting) :
    SaveOutcome :=
  match target with
  | some _ =>
      let t := computeTranscriptText f
      { invoked := hasKey && truthyText t
        storedText := match t with
          | some s => if s = "" then none else some s
          | none => none
        createdMeeting := false
        success := true }
  | none =>
      if readCondition f then
        match f.content with
        | some raw =>
            if csvFormatCond f then
              let t := (normalizeCsv raw).1
              { invoked := hasKey && t != ""
                storedText := some t
                createdMeeting := true
                success := true }
            else
              { invoked := false
                storedText := some raw
                createdMeeting := true
                success := true }
        | none =>
            { invoked := false, storedText := none,
              createdMeeting := false, success := false }
      else
        { invoked := false, storedText := none,
          createdMeeting := false, success := false }

/-! ## The summary store and its operations (C1) -/

/-- A persisted summary record, reduced to its identity and its meeting
reference (the content fields play no role in the uniqueness claim). -/
structure SummaryRec where
  sid : Nat
  meetingId : Nat
deriving Repr, DecidableEq

/-- The storage state relevant to summary uniqueness: the existing meeting
ids, the summary rows, and the serial id counters. -/
structure Store where
  meetingIds : List Nat
  nextMeetingId : Nat
  summaries : List SummaryRec
  nextSummaryId : Nat
deriving Repr, DecidableEq

/-- Models `storage.getMeetingSummaryByMeeting(meetingId)`: the first row whose
meeting reference matches. -/
def getSummaryByMeeting (st : Store) (m : Nat) : Option SummaryRec :=
  st.summaries.find? (fun r => r.meetingId == m)

/-- Models `storage.createMeetingSummary`: insert a row with a fresh serial id. -/
def createSummary (st : Store) (m : Nat) : Store :=
  { st with summaries := st.summaries ++ [⟨st.nextSummaryId, m⟩],
            nextSummaryId := st.nextSummaryId + 1 }

/-- Models `storage.updateMeetingSummary(id, data)` at the analysis call sites:
the update object carries only content fields, never `meetingId`, so the
identity/reference projection of the store is unchanged. -/
def updateSummary (st : Store) (_sid : Nat) : Store := st

/-- Models `storage.createMeeting`: insert a meeting with a fresh serial id and
return the id. -/
def createMeetingIn (st : Store) : Store × Nat :=
  ({ st with meetingIds := st.meetingIds ++ [st.nextMeetingId],
             nextMeetingId := st.nextMeetingId + 1 },
   st.nextMeetingId)

/-- The shared upsert of both analysis passes: check for an existing
summary, update it in place if found, create one otherwise. -/
def autoAnalysisStep (st : Store) (m : Nat) : Store :=
  match getSummaryByMeeting st m with
  | some r => updateSummary st r.sid
  | none => createSummary st m

/-- The sequential operations that touch the summary table:
transcript-upload auto-analysis, the `POST /api/analyze-transcript`
endpoint, the explicit `POST /api/meeting-summaries` creation, plain
meeting creation, and the CSV upload that creates a fresh meeting and then
creates its summary without an existence check. -/
inductive SumOp where
  | uploadAnalysis (m : Nat)
  | analyzeEndpoint (m : Nat)
  | postSummaryCreate (m : Nat)
  | createMeetingOp
  | csvUploadNewMeeting
deriving Repr, DecidableEq

/-- Effect of one operation on the store.  The two analysis passes and the
explicit creation all begin with `storage.getMeeting` and do nothing when
the meeting is absent; the explicit creation is rejected with 409 when a
summary already exists. -/
def stepOp (st : Store) : SumOp → Store
  | .uploadAnalysis m =>
      if m ∈ st.meetingIds then autoAnalysisStep st m else st
  | .analyzeEndpoint m =>
      if m ∈ st.meetingIds then autoAnalysisStep st m else st
  | .postSummaryCreate m =>
      if m ∈ st.meetingIds then
        match getSummaryByMeeting st m with
        | some _ => st
        | none => createSummary st m
      else st
  | .createMeetingOp => (createMeetingIn st).1
  | .csvUploadNewMeeting =>
      let pr := createMeetingIn st
      createSummary pr.1 pr.2

/-- Run a sequence of operations from a store. -/
def runOps (st : Store) (ops : List SumOp) : Store :=
  ops.foldl stepOp st

/-- The empty initial store. -/
def initStore : Store := ⟨[], 0, [], 0⟩

/-- All summary rows referencing a meeting. -/
def summariesFor (st : Store) (m : Nat) : List SummaryRec :=
  st.summaries.filter (fun r => r.meetingId == m)

/-- The store invariant: at most one summary per meeting, and every
meeting id in use is below the serial counter. -/
def StoreInv (st : Store) : Prop :=
  (∀ m, (summariesFor st m).length ≤ 1) ∧
  (∀ r ∈ st.summaries, r.meetingId < st.nextMeetingId) ∧
  (∀ m ∈ st.meetingIds, m < st.nextMeetingId)

/-! ## Declarative restatement of the CSV normalizer (for the refinement
theorem of claim C2): per-row rendering and first-seen deduplication,
defined by structural recursion rather than by an accumulating fold. -/

/-- Concatenation of a list of strings. -/
def joinAll : List String → String
  | [] => ""
  | s :: rest => s ++ joinAll rest

/-- Declarative per-row output: nothing for a blank line, the canonical
`[timestamp] speaker: text` line for a row with at least three fields, the
trimmed line itself otherwise. -/
def renderLine (rawLine : String) : String :=
  let line := jsTrim rawLine
  if line = "" then ""
  else
    let parts := csvSplit line
    if 3 ≤ parts.length then canonicalLine parts
    else line ++ "\n"

/-- Declarative per-row speaker: the speaker column of a row with at least
three fields, nothing otherwise. -/
def lineSpeaker (rawLine : String) : Option String :=
  let line := jsTrim rawLine
  if line = "" then none
  else
    let parts := csvSplit line
    if 3 ≤ parts.length then some (rowSpeaker parts)
    else none

/-- A speaker value that enters the participant set: non-empty and not the
literal string "undefined". -/
def validSpeaker (s : String) : Prop :=
  s ≠ "" ∧ s ≠ "undefined"

instance (s : String) : Decidable (validSpeaker s) := by
  unfold validSpeaker; infer_instance

/-- First-seen deduplication: keep the first occurrence of every value. -/
def dedupFirst : List String → List String
  | [] => []
  | x :: xs => x :: dedupFirst (xs.filter (fun y => y != x))
termination_by l => l.length
decreasing_by
  simp only [List.length_cons]
  exact Nat.lt_succ_of_le (List.length_filter_le _ _)

/-- Apply an optional speaker to the participant set. -/
def addSpeakerOpt (ps : List String) : Option String → List String
  | some s => addParticipant ps s
  | none => ps

theorem csvStep_eq (t : String) (ps : List String) (l : String) :
    csvStep (t, ps) l = (t ++ renderLine l, addSpeakerOpt ps (lineSpeaker l)) := by
  unfold csvStep renderLine lineSpeaker addSpeakerOpt
  dsimp only
  split_ifs with h1 h2 <;>
    simp [String.append_empty, String.append_assoc]

theorem csv_fold_spec (ls : List String) (t : String) (ps : List String) :
    ls.foldl csvStep (t, ps) =
      (t ++ joinAll (ls.map renderLine),
       (ls.filterMap lineSpeaker).foldl addParticipant ps) := by
  induction ls generalizing t ps with
  | nil => simp [joinAll, String.append_empty]
  | cons l ls ih =>
      simp only [List.foldl_cons, List.map_cons, joinAll,
        List.filterMap_cons]
      rw [csvStep_eq, ih, ← String.append_assoc]
      cases h : lineSpeaker l <;> simp [addSpeakerOpt]

theorem addParticipant_filter_pred (ps : List String) (x a : String) :
    ((a != x) && decide (validSpeaker a ∧ a ∉ ps)) =
      decide (validSpeaker a ∧ a ∉ ps ++ [x]) := by
  by_cases hax : a = x
  · subst hax; simp [List.mem_append]
  · simp [hax, List.mem_append]

theorem fold_addParticipant (l : List String) (ps : List String) :
    l.foldl addParticipant ps =
      ps ++ dedupFirst (l.filter (fun s => decide (validSpeaker s ∧ s ∉ ps))) := by
  induction l generalizing ps with
  | nil => simp [dedupFirst]
  | cons x xs ih =>
      simp only [List.foldl_cons, List.filter_cons]
      by_cases hx : validSpeaker x ∧ x ∉ ps
      · have haddp : addParticipant ps x = ps ++ [x] := by
          unfold addParticipant
          rw [if_pos ⟨hx.1.1, hx.1.2, hx.2⟩]
        rw [haddp, ih, decide_eq_true hx, if_pos rfl]
        have hded : dedupFirst
            (x :: xs.filter (fun s => decide (validSpeaker s ∧ s ∉ ps))) =
            x :: dedupFirst
              ((xs.filter (fun s => decide (validSpeaker s ∧ s ∉ ps))).filter
                (fun y => y != x)) := by
          simp [dedupFirst]
        rw [hded, List.filter_filter]
        have hcong :
            (xs.filter (fun a => (a != x) &&
              decide (validSpeaker a ∧ a ∉ ps))) =
            (xs.filter (fun a => decide (validSpeaker a ∧ a ∉ ps ++ [x]))) := by
          apply List.filter_congr
          intro a _
          exact addParticipant_filter_pred ps x a
        rw [hcong, List.append_assoc, List.singleton_append]
      · have haddp : addParticipant ps x = ps := by
          unfold addParticipant
          rw [if_neg]
          intro hc
          exact hx ⟨⟨hc.1, hc.2.1⟩, hc.2.2⟩
        have hdx : decide (validSpeaker x ∧ x ∉ ps) = false := by
          simpa using hx
        rw [haddp, hdx, if_neg (by simp), ih]

/-- Claim C2 (amended): for every CSV input, normalization emits, per body
row in original order, the canonical line `[timestamp] speaker: text` when
the row splits into at least three comma-delimited fields and the
whitespace-trimmed line itself otherwise (blank lines are dropped); the
first line is skipped as a header exactly when it contains "timestamp" or
"speaker"; and the participant list equals the distinct non-empty,
non-"undefined" speaker values of the well-formed rows in first-seen
order. -/
theorem spec_c2_normalizer (raw : String) :
    (normalizeCsv raw).1 = joinAll ((csvBody raw).map renderLine) ∧
    (normalizeCsv raw).2 =
      dedupFirst (((csvBody raw).filterMap lineSpeaker).filter
        (fun s => decide (validSpeaker s))) ∧
    (csvHeaderSkip (jsSplitChar raw '\n') = 1 ↔
      (jsIncludes ((jsSplitChar raw '\n').headD "") "timestamp" ∨
        jsIncludes ((jsSplitChar raw '\n').headD "") "speaker")) := by
  refine ⟨?_, ?_, ?_⟩
  · unfold normalizeCsv
    rw [csv_fold_spec, String.empty_append]
  · unfold normalizeCsv
    rw [csv_fold_spec]
    dsimp only
    rw [fold_addParticipant, List.nil_append]
    congr 1
    apply List.filter_congr
    intro a _
    simp
  · unfold csvHeaderSkip
    split_ifs with h
    · exact ⟨fun _ => h, fun _ => rfl⟩
    · exact ⟨fun h1 => absurd h1 (by decide), fun hc => absurd hc h⟩

/-- Claim C2 counterexample: the single body line " x,y" has fewer than
three comma-delimited fields, yet it is not passed through verbatim — the
output is the trimmed "x,y" followed by a newline. -/
theorem spec_c2_cex :
    (csvSplit " x,y").length = 2 ∧
    (normalizeCsv " x,y").1 = "x,y\n" ∧
    (normalizeCsv " x,y").1 ≠ " x,y" ++ "\n" := by
  refine ⟨by decide, by decide, by decide⟩

theorem summariesFor_eq_nil_of_find (st : Store) (m : Nat)
    (h : getSummaryByMeeting st m = none) : summariesFor st m = [] := by
  unfold getSummaryByMeeting at h
  unfold summariesFor
  rw [List.filter_eq_nil_iff]
  intro a ha
  simpa using List.find?_eq_none.mp h a ha

theorem storeInv_createSummary (st : Store) (m : Nat) (h : StoreInv st)
    (hempty : summariesFor st m = []) (hm : m < st.nextMeetingId) :
    StoreInv (createSummary st m) := by
  obtain ⟨h1, h2, h3⟩ := h
  unfold summariesFor at hempty
  refine ⟨?_, ?_, ?_⟩
  · intro m'
    unfold summariesFor createSummary
    dsimp only
    rw [List.filter_append]
    by_cases hm' : m = m'
    · subst hm'
      rw [hempty, List.nil_append]
      simp
    · have hdrop :
          (([⟨st.nextSummaryId, m⟩] : List SummaryRec).filter
            (fun r => r.meetingId == m')) = [] := by
        simp [hm']
      rw [hdrop, List.append_nil]
      exact h1 m'
  · intro r hr
    unfold createSummary at hr
    dsimp only at hr
    rw [List.mem_append] at hr
    rcases hr with hr | hr
    · exact h2 r hr
    · have : r = ⟨st.nextSummaryId, m⟩ := by simpa using hr
      rw [this]
      exact hm
  · exact h3

theorem storeInv_autoAnalysis (st : Store) (m : Nat) (h : StoreInv st)
    (hm : m < st.nextMeetingId) : StoreInv (autoAnalysisStep st m) := by
  unfold autoAnalysisStep
  cases hfind : getSummaryByMeeting st m with
  | some r => exact h
  | none =>
      exact storeInv_createSummary st m h
        (summariesFor_eq_nil_of_find st m hfind) hm

theorem storeInv_createMeetingIn (st : Store) (h : StoreInv st) :
    StoreInv (createMeetingIn st).1 := by
  obtain ⟨h1, h2, h3⟩ := h
  refine ⟨h1, ?_, ?_⟩
  · intro r hr
    exact Nat.lt_succ_of_lt (h2 r hr)
  · intro m hm
    unfold createMeetingIn at hm
    dsimp only at hm
    rw [List.mem_append] at hm
    rcases hm with hm | hm
    · exact Nat.lt_succ_of_lt (h3 m hm)
    · have : m = st.nextMeetingId := by simpa using hm
      rw [this]
      exact Nat.lt_succ_self _

theorem storeInv_step (st : Store) (op : SumOp) (h : StoreInv st) :
    StoreInv (stepOp st op) := by
  cases op with
  | uploadAnalysis m =>
      show StoreInv (if m ∈ st.meetingIds then autoAnalysisStep st m else st)
      split_ifs with hm
      · exact storeInv_autoAnalysis st m h (h.2.2 m hm)
      · exact h
  | analyzeEndpoint m =>
      show StoreInv (if m ∈ st.meetingIds then autoAnalysisStep st m else st)
      split_ifs with hm
      · exact storeInv_autoAnalysis st m h (h.2.2 m hm)
      · exact h
  | postSummaryCreate m =>
      show StoreInv (if m ∈ st.meetingIds then _ else st)
      split_ifs with hm
      · cases hfind : getSummaryByMeeting st m with
        | some r => exact h
        | none =>
            exact storeInv_createSummary st m h
              (summariesFor_eq_nil_of_find st m hfind) (h.2.2 m hm)
      · exact h
  | createMeetingOp => exact storeInv_createMeetingIn st h
  | csvUploadNewMeeting =>
      have hstep := storeInv_createMeetingIn st h
      show StoreInv (createSummary (createMeetingIn st).1 (createMeetingIn st).2)
      apply storeInv_createSummary _ _ hstep
      · unfold summariesFor
        rw [List.filter_eq_nil_iff]
        intro r hr
        have hlt : r.meetingId < st.nextMeetingId := h.2.1 r hr
        simp only [createMeetingIn, beq_iff_eq]
        exact Nat.ne_of_lt hlt
      · show (createMeetingIn st).2 < (createMeetingIn st).1.nextMeetingId
        exact Nat.lt_succ_self _

theorem storeInv_runOps (ops : List SumOp) (st : Store) (h : StoreInv st) :
    StoreInv (runOps st ops) := by
  induction ops generalizing st with
  | nil => exact h
  | cons op ops ih => exact ih (stepOp st op) (storeInv_step st op h)

/-- Claim C1: starting from an empty store, any sequence of the summary
operations — transcript-upload auto-analysis, the analyze-transcript
endpoint, explicit summary creation, meeting creation and the CSV
new-meeting upload — leaves at most one SummaryRecord per meeting: the
analysis passes take the update path when a record exists, and explicit
creation is rejected with a conflict when one exists. -/
theorem spec_c1_summary_unique (ops : List SumOp) (m : Nat) :
    (summariesFor (runOps initStore ops) m).length ≤ 1 := by
  have hbase : StoreInv initStore := by
    refine ⟨?_, ?_, ?_⟩
    · intro m'
      simp [summariesFor, initStore]
    · intro r hr
      simp [initStore] at hr
    · intro m' hm'
      simp [initStore] at hm'
  exact (storeInv_runOps ops initStore hbase).1 m

/-- Claim C3: for a discussion point whose `decisions` array is non-empty,
derivation emits exactly one Decision draft per entry — description =
entry.decision, owner = entry.owner, context = point.topic — without
crashing, and the insights array of the point is never consulted: replacing
it by any other list leaves the result unchanged. -/
theorem spec_c3_direct_decisions (participants : List String)
    (timeLabel : String) (p : Point) (ds : List DecisionEntry)
    (ins : List InsightVal)
    (hds : p.decisions = some ds) (hne : ds ≠ []) :
    derivePoint participants timeLabel p =
      (ds.map (fun d => ⟨d.decision, d.owner, timeLabel, p.topic⟩), false) ∧
    derivePoint participants timeLabel { p with insights := ins } =
      derivePoint participants timeLabel p := by
  have hlen : 0 < ds.length := List.length_pos.mpr hne
  constructor
  · unfold derivePoint
    rw [hds]
    dsimp only
    rw [if_pos hlen]
  · unfold derivePoint
    dsimp only
    rw [hds]
    dsimp only
    rw [if_pos hlen, if_pos hlen]

theorem spec_c3_witness :
    ((⟨"Topic", "s", none, [.str "x"], [], some [⟨"D", "O"⟩]⟩ : Point).decisions
        = some [⟨"D", "O"⟩]) ∧
    ([(⟨"D", "O"⟩ : DecisionEntry)] ≠ []) ∧
    (derivePoint [] "12:00"
        ⟨"Topic", "s", none, [.str "x"], [], some [⟨"D", "O"⟩]⟩ =
      ([⟨"D", "O", "12:00", "Topic"⟩], false) ∧
    derivePoint [] "12:00"
        ⟨"Topic", "s", none,
          [.obj (some "we agreed") none (some "John Doe")], [],
          some [⟨"D", "O"⟩]⟩ =
      derivePoint [] "12:00"
        ⟨"Topic", "s", none, [.str "x"], [], some [⟨"D", "O"⟩]⟩) :=
  ⟨rfl, by decide,
    spec_c3_direct_decisions [] "12:00"
      ⟨"Topic", "s", none, [.str "x"], [], some [⟨"D", "O"⟩]⟩
      [⟨"D", "O"⟩] [.obj (some "we agreed") none (some "John Doe")]
      rfl (by decide)⟩

/-- Claim C4 (code evaluated at the failing input): a speaker-attributed
object insight with non-empty extracted text containing the keyword
"agreed" does not yield a Decision draft — the derivation pass aborts with
a thrown `TypeError` (`insight.match` is applied to the raw object), so no
draft is emitted for it; the same text as a bare string insight does yield
a draft whose description is the insight text. -/
theorem spec_c4_object_insight_crash :
    (insightTextOf
        (InsightVal.obj (some "We agreed to ship") none (some "John Doe")) =
      "We agreed to ship") ∧
    (isDecisionBearing "We agreed to ship" = true) ∧
    (derivePoint [] "12:00"
        ⟨"Topic", "s", none,
          [InsightVal.obj (some "We agreed to ship") none (some "John Doe")],
          [], none⟩ =
      ([], true)) ∧
    (derivePoint [] "12:00"
        ⟨"Topic", "s", none, [InsightVal.str "We agreed to ship"], [],
          none⟩ =
      ([⟨"We agreed to ship", "Team", "12:00", "Topic"⟩], false)) := by
  refine ⟨by decide, by decide, by decide, by decide⟩

/-- Claim C5 (code evaluated at the failing input): an insight that carries
both a speaker name ("John Doe") and a matching leading "Name:" prefix
("John:") never gets an owner at all — the code crashes at
`insight.match` before any precedence between the prefix and the initials
can apply, and no draft is created; only for a bare string insight (where
no speaker name exists) does the leading prefix determine the owner. -/
theorem spec_c5_prefix_speaker_crash :
    (speakerNameOf
        (InsightVal.obj (some "John: we agreed to proceed") none
          (some "John Doe")) = some "John Doe") ∧
    (leadingNameOf "John: we agreed to proceed" = some "John") ∧
    (isDecisionBearing "John: we agreed to proceed" = true) ∧
    (derivePoint ["John Doe"] "12:00"
        ⟨"Topic", "s", none,
          [InsightVal.obj (some "John: we agreed to proceed") none
            (some "John Doe")], [], none⟩ =
      ([], true)) ∧
    (derivePoint ["John Doe"] "12:00"
        ⟨"Topic", "s", none,
          [InsightVal.str "John: we agreed to proceed"], [], none⟩ =
      ([⟨"John: we agreed to proceed", "John", "12:00", "Topic"⟩],
        false)) := by
  refine ⟨by decide, by decide, by decide, by decide, by decide⟩

/-- Claim C6: when the follow-up structure carries a non-empty
`taskAssignments` list, action-item derivation emits exactly one draft per
entry — task = entry.task, assignee = entry.assignee, deadline =
derivation time plus 7 days (date-only), status "Pending", priority
"Medium", the fixed auto-generation notes marker — and nothing else: no
resource-based item is ever mixed in. -/
theorem spec_c6_task_items (c : Clock) (s : SummaryData)
    (participants : List String) (ts : List TaskAssignment)
    (hts : s.followUpRequirements.taskAssignments = some ts)
    (hne : ts ≠ []) :
    deriveActionItems c s participants =
      ts.map (fun t =>
        ⟨t.task, t.assignee, c.isoDateOnly (c.nowMs + 7 * 24 * 60 * 60 * 1000),
          "Pending", "Medium", "Auto-generated from meeting analysis"⟩) := by
  have hlen : 0 < ts.length := List.length_pos.mpr hne
  unfold deriveActionItems
  rw [hts]
  dsimp only
  rw [if_pos hlen]
  rfl

theorem spec_c6_witness :
    ((⟨"es", none, [],
        ⟨none, none, some ["road map doc"], some [⟨"Draft RFC", "Sam"⟩]⟩,
        ⟨"t", "e", none⟩, [], none⟩ :
        SummaryData).followUpRequirements.taskAssignments =
      some [⟨"Draft RFC", "Sam"⟩]) ∧
    ([(⟨"Draft RFC", "Sam"⟩ : TaskAssignment)] ≠ []) ∧
    (deriveActionItems ⟨0, "12:00", "1/1/2025", fun _ => "2025-01-08"⟩
        ⟨"es", none, [],
          ⟨none, none, some ["road map doc"], some [⟨"Draft RFC", "Sam"⟩]⟩,
          ⟨"t", "e", none⟩, [], none⟩ [] =
      [⟨"Draft RFC", "Sam", "2025-01-08", "Pending", "Medium",
        "Auto-generated from meeting analysis"⟩]) :=
  ⟨rfl, by decide,
    spec_c6_task_items ⟨0, "12:00", "1/1/2025", fun _ => "2025-01-08"⟩
      ⟨"es", none, [],
        ⟨none, none, some ["road map doc"], some [⟨"Draft RFC", "Sam"⟩]⟩,
        ⟨"t", "e", none⟩, [], none⟩ [] [⟨"Draft RFC", "Sam"⟩]
      rfl (by decide)⟩

/-- Claim C7 (amended): on every failure of the summarization client — no
credential configured, or a failed/unparseable remote call — the caller
receives the placeholder SummaryRecord: its executive summary is the fixed
failure explanation mentioning the API key, `keyDiscussionPoints` has
exactly one entry whose insight/question/decision containers are all
non-empty, the follow-up and sentiment structures are fully populated, but
the transcript-highlights container is empty. -/
theorem spec_c7_placeholder (hasKey : Bool) (remote : Option SummaryData)
    (hfail : hasKey = false ∨ remote = none) :
    (analyzeTranscriptModel hasKey remote).executiveSummary =
      "Failed to generate summary. Please provide an OpenAI API key to enable this feature." ∧
    jsIncludes (analyzeTranscriptModel hasKey remote).executiveSummary
      "API key" = true ∧
    (analyzeTranscriptModel hasKey remote).keyDiscussionPoints.length = 1 ∧
    ((analyzeTranscriptModel hasKey remote).keyDiscussionPoints.headD
        ⟨"", "", none, [], [], none⟩).insights ≠ [] ∧
    ((analyzeTranscriptModel hasKey remote).keyDiscussionPoints.headD
        ⟨"", "", none, [], [], none⟩).questions ≠ [] ∧
    ((analyzeTranscriptModel hasKey remote).keyDiscussionPoints.headD
        ⟨"", "", none, [], [], none⟩).decisions =
      some [⟨"Configure OpenAI API key to enable AI features",
        "Administrator"⟩] ∧
    (analyzeTranscriptModel hasKey remote).followUpRequirements =
      ⟨some "Not available", some ["AI-powered analysis"],
        some ["OpenAI API key"],
        some [⟨"Add OpenAI API key to environment variables",
          "Administrator"⟩]⟩ ∧
    (analyzeTranscriptModel hasKey remote).sentimentAnalysis =
      ⟨"Not available", "Not available", none⟩ ∧
    (analyzeTranscriptModel hasKey remote).transcriptHighlights = [] := by
  rcases hfail with h | h
  · subst h
    have hred : analyzeTranscriptModel false remote =
        createPlaceholderSummary
          "OpenAI API key is not configured. Please set OPENAI_API_KEY environment variable." :=
      rfl
    rw [hred]
    exact ⟨rfl, by decide, rfl, by decide, by decide, rfl, rfl, rfl, rfl⟩
  · subst h
    cases hasKey
    · exact ⟨rfl, by decide, rfl, by decide, by decide, rfl, rfl, rfl, rfl⟩
    · exact ⟨rfl, by decide, rfl, by decide, by decide, rfl, rfl, rfl, rfl⟩

theorem spec_c7_witness :
    (false = false ∨ (none : Option SummaryData) = none) ∧
    ((analyzeTranscriptModel false none).executiveSummary =
      "Failed to generate summary. Please provide an OpenAI API key to enable this feature." ∧
    jsIncludes (analyzeTranscriptModel false none).executiveSummary
      "API key" = true ∧
    (analyzeTranscriptModel false none).keyDiscussionPoints.length = 1 ∧
    ((analyzeTranscriptModel false none).keyDiscussionPoints.headD
        ⟨"", "", none, [], [], none⟩).insights ≠ [] ∧
    ((analyzeTranscriptModel false none).keyDiscussionPoints.headD
        ⟨"", "", none, [], [], none⟩).questions ≠ [] ∧
    ((analyzeTranscriptModel false none).keyDiscussionPoints.headD
        ⟨"", "", none, [], [], none⟩).decisions =
      some [⟨"Configure OpenAI API key to enable AI features",
        "Administrator"⟩] ∧
    (analyzeTranscriptModel false none).followUpRequirements =
      ⟨some "Not available", some ["AI-powered analysis"],
        some ["OpenAI API key"],
        some [⟨"Add OpenAI API key to environment variables",
          "Administrator"⟩]⟩ ∧
    (analyzeTranscriptModel false none).sentimentAnalysis =
      ⟨"Not available", "Not available", none⟩ ∧
    (analyzeTranscriptModel false none).transcriptHighlights = []) :=
  ⟨Or.inl rfl, spec_c7_placeholder false none (Or.inl rfl)⟩

/-- Claim C7 counterexample: the placeholder returned for a missing
credential has an empty `transcriptHighlights` container, so not all
required containers of the placeholder are non-empty. -/
theorem spec_c7_cex :
    (analyzeTranscriptModel false none).transcriptHighlights = [] := rfl

/-- The upsert of an analysis pass always leaves a summary record for the
analyzed meeting in the store. -/
theorem upsert_persists (st : Store) (mid : Nat) :
    getSummaryByMeeting (autoAnalysisStep st mid) mid ≠ none := by
  unfold autoAnalysisStep
  cases hfind : getSummaryByMeeting st mid with
  | some r =>
      show getSummaryByMeeting st mid ≠ none
      rw [hfind]
      exact fun hc => Option.noConfusion hc
  | none =>
      show getSummaryByMeeting (createSummary st mid) mid ≠ none
      unfold getSummaryByMeeting createSummary
      dsimp only
      rw [List.find?_append]
      unfold getSummaryByMeeting at hfind
      rw [hfind]
      simp

/-- Claim C8 (amended): when the summarization client fails, the
orchestrator still persists the placeholder (the upsert leaves a summary
for the meeting) and runs derivation against it; that derivation pass does
not crash and produces exactly one Decision draft (the "Configure OpenAI
API key" decision of the placeholder) and exactly one ActionItem draft
(the "Add OpenAI API key" task of the placeholder) — not zero drafts. -/
theorem spec_c8_placeholder_pass (hasKey : Bool) (remote : Option SummaryData)
    (c : Clock) (st : Store) (mid : Nat) (participants : List String)
    (hfail : hasKey = false ∨ remote = none) :
    getSummaryByMeeting (autoAnalysisStep st mid) mid ≠ none ∧
    derivePass c participants (analyzeTranscriptModel hasKey remote) =
      ⟨[⟨"Configure OpenAI API key to enable AI features", "Administrator",
          c.timeLabel, "OpenAI Integration Required"⟩],
        [⟨"Add OpenAI API key to environment variables", "Administrator",
          c.isoDateOnly (c.nowMs + 7 * 24 * 60 * 60 * 1000), "Pending",
          "Medium", "Auto-generated from meeting analysis"⟩],
        false⟩ := by
  rcases hfail with h | h
  · subst h
    exact ⟨upsert_persists st mid, rfl⟩
  · subst h
    cases hasKey
    · exact ⟨upsert_persists st mid, rfl⟩
    · exact ⟨upsert_persists st mid, rfl⟩

theorem spec_c8_witness :
    (false = false ∨ (none : Option SummaryData) = none) ∧
    (getSummaryByMeeting (autoAnalysisStep initStore 0) 0 ≠ none ∧
    derivePass ⟨0, "12:00", "1/1/2025", fun _ => "2025-01-08"⟩ []
        (analyzeTranscriptModel false none) =
      ⟨[⟨"Configure OpenAI API key to enable AI features", "Administrator",
          "12:00", "OpenAI Integration Required"⟩],
        [⟨"Add OpenAI API key to environment variables", "Administrator",
          "2025-01-08", "Pending", "Medium",
          "Auto-generated from meeting analysis"⟩],
        false⟩) :=
  ⟨Or.inl rfl,
    spec_c8_placeholder_pass false none
      ⟨0, "12:00", "1/1/2025", fun _ => "2025-01-08"⟩ initStore 0 []
      (Or.inl rfl)⟩

/-- Claim C8 counterexample: the derivation pass over the placeholder does
produce drafts — one Decision draft and one ActionItem draft — rather than
none. -/
theorem spec_c8_cex :
    (derivePass ⟨0, "12:00", "1/1/2025", fun _ => "2025-01-08"⟩ []
        (analyzeTranscriptModel false none)).decisions ≠ [] ∧
    (derivePass ⟨0, "12:00", "1/1/2025", fun _ => "2025-01-08"⟩ []
        (analyzeTranscriptModel false none)).actionItems ≠ [] := by
  refine ⟨by decide, by decide⟩

/-- Claim C9 (amended): the summarization client is invoked in an upload
pass exactly when a credential is configured, the pass stored non-empty
transcript text, and the pass is either targeted at an existing meeting or
is the CSV new-meeting branch.  In particular analysis never runs without a
credential or with empty stored text — but the plain-text new-meeting
branch never invokes it either. -/
theorem spec_c9_invocation (hasKey : Bool) (f : UploadFile)
    (target : Option Meeting) :
    (savePass hasKey f target).invoked = true ↔
      (hasKey = true ∧
        (∃ t, (savePass hasKey f target).storedText = some t ∧ t ≠ "") ∧
        (target ≠ none ∨ csvFormatCond f = true)) := by
  cases target with
  | some m =>
      unfold savePass
      dsimp only
      cases hct : computeTranscriptText f with
      | none =>
          simp [truthyText]
      | some s =>
          by_cases hs : s = ""
          · subst hs
            simp [truthyText]
          · simp [truthyText, hs]
  | none =>
      unfold savePass
      dsimp only
      by_cases hrc : readCondition f
      · cases hcontent : f.content with
        | none => simp [hrc]
        | some raw =>
            by_cases hcsv : csvFormatCond f
            · by_cases ht : (normalizeCsv raw).1 = "" <;>
                simp [hrc, hcsv, ht]
            · simp [hrc, hcsv]
      · simp [hrc]

/-- Claim C9 counterexample: a plain-text upload with no target meeting,
non-empty content and a configured credential creates a meeting and stores
the non-empty transcript text, yet the summarization client is not
invoked. -/
theorem spec_c9_cex :
    (savePass true ⟨"notes.txt", ".txt", "text/plain", "up/p",
        some "hello world"⟩ none).storedText = some "hello world" ∧
    (savePass true ⟨"notes.txt", ".txt", "text/plain", "up/p",
        some "hello world"⟩ none).createdMeeting = true ∧
    (savePass true ⟨"notes.txt", ".txt", "text/plain", "up/p",
        some "hello world"⟩ none).invoked = false := by
  refine ⟨by decide, by decide, by decide⟩

/-- Claim C10: a transcript upload targeted at an existing meeting changes
at most the transcript fields of the meeting: identity, title, date, times,
duration, participants, location, creator, team and visibility are all
unchanged — in particular no participants are extracted from the CSV
content in this path. -/
theorem spec_c10_upload_frame (m : Meeting) (f : UploadFile) :
    (existingUploadUpdate m f).id = m.id ∧
    (existingUploadUpdate m f).title = m.title ∧
    (existingUploadUpdate m f).date = m.date ∧
    (existingUploadUpdate m f).startTime = m.startTime ∧
    (existingUploadUpdate m f).endTime = m.endTime ∧
    (existingUploadUpdate m f).duration = m.duration ∧
    (existingUploadUpdate m f).participants = m.participants ∧
    (existingUploadUpdate m f).location = m.location ∧
    (existingUploadUpdate m f).createdBy = m.createdBy ∧
    (existingUploadUpdate m f).teamId = m.teamId ∧
    (existingUploadUpdate m f).isPublic = m.isPublic :=
  ⟨rfl, rfl, rfl, rfl, rfl, rfl, rfl, rfl, rfl, rfl, rfl⟩

end MeetingMaster
